import Mathlib

/-!
Shallow embedding of `src/dist/zfecth.js` (the `zjs` HTTP client factory):
JS values and truthiness, the interceptor/transform pipelines, the TTL
cache, the retry/backoff loop, the concurrency queue and the
cancellation-signal composition, together with theorems checking the
specification's claims against these definitions.
-/

namespace Zfecth

/-- JS values, with just enough structure to express JS truthiness and the
`typeof body !== "string"` / `body != null` tests the source performs.
Objects are abstracted by an identifier (they are always truthy). -/
inductive JSValue where
  | null
  | undefined
  | bool (b : Bool)
  | num (n : Int)
  | str (s : String)
  | obj (id : Nat)
deriving DecidableEq, Repr

/-- JS falsiness: `null`, `undefined`, `false`, `0` and `""` are falsy. -/
def JSValue.falsy : JSValue → Bool
  | .null => true
  | .undefined => true
  | .bool b => !b
  | .num n => n == 0
  | .str s => s == ""
  | .obj _ => false

/-- JS loose equality with null: `v != null` fails exactly on `null` and
`undefined`. -/
def JSValue.isNullish : JSValue → Bool
  | .null => true
  | .undefined => true
  | _ => false

/-- `typeof v === "string"`. -/
def JSValue.isString : JSValue → Bool
  | .str _ => true
  | _ => false

/-- Header maps are modelled as association lists (insertion order kept,
as JS object keys are). -/
abbrev Headers := List (String × String)

/-- What ends up in `options.body` after the body guard of
`handleFetchRaw` (source lines 269-284). -/
inductive SentBody where
  | omitted
  | raw (v : JSValue)
  | jsonString (v : JSValue)
deriving DecidableEq, Repr

/-- The response object built by the task in `handleFetchRaw`
(source lines 367-375), with fields the claims talk about. -/
structure Resp where
  ok : Bool
  status : Nat
  statusText : String
  data : JSValue
deriving DecidableEq, Repr

/-- The interceptor config built in `handleFetchRaw` (source lines
302-311): the fields request interceptors can observe and replace. -/
structure Cfg where
  url : String
  method : String
  optionsHeaders : Headers
  optionsBody : SentBody
  timeout : Nat
  retries : Nat
  retryDelay : Nat
  cacheTTL : Nat
deriving DecidableEq, Repr

/-- A user hook returning a JS value: it either throws (`Except.error`)
or returns a value (which may be falsy). -/
abbrev JSHook (α : Type) := α → Except Unit JSValue

/-- One pipeline step over a JS value:
`try { cur = fn(cur) || cur } catch { /- ignore -/ }` — a thrown error or
a falsy return keeps the current value. -/
def jsOrKeep (r : Except Unit JSValue) (cur : JSValue) : JSValue :=
  match r with
  | .error _ => cur
  | .ok v => if v.falsy then cur else v

/-- One pipeline step over a structured value (config or response): hooks
may throw, return a falsy value (encoded `none`, meaning "no change") or
return a replacement object. -/
def objOrKeep {α : Type} (r : Except Unit (Option α)) (cur : α) : α :=
  match r with
  | .error _ => cur
  | .ok none => cur
  | .ok (some v) => v

/-- `applyTransformRequest(data, headers)` (source lines 172-178): fold
the registered transform functions over the body, best effort. -/
def applyTransformRequest (hooks : List (JSValue → Headers → Except Unit JSValue))
    (data : JSValue) (headers : Headers) : JSValue :=
  hooks.foldl (fun d fn => jsOrKeep (fn d headers) d) data

/-- `applyTransformResponse(data, res)` (source lines 179-185). -/
def applyTransformResponse (hooks : List (JSValue → Resp → Except Unit JSValue))
    (data : JSValue) (res : Resp) : JSValue :=
  hooks.foldl (fun d fn => jsOrKeep (fn d res) d) data

/-- `applyRequestInterceptors(cfg)` (source lines 156-162). -/
def applyRequestInterceptors (hooks : List (Cfg → Except Unit (Option Cfg)))
    (cfg : Cfg) : Cfg :=
  hooks.foldl (fun c fn => objOrKeep (fn c) c) cfg

/-- `applyResponseInterceptors(res)` (source lines 163-169). -/
def applyResponseInterceptors (hooks : List (Resp → Except Unit (Option Resp)))
    (res : Resp) : Resp :=
  hooks.foldl (fun r fn => objOrKeep (fn r) r) res

theorem applyTransformRequest_append
    (fs gs : List (JSValue → Headers → Except Unit JSValue))
    (d : JSValue) (hs : Headers) :
    applyTransformRequest (fs ++ gs) d hs
      = applyTransformRequest gs (applyTransformRequest fs d hs) hs := by
  simp [applyTransformRequest, List.foldl_append]

theorem applyRequestInterceptors_append
    (fs gs : List (Cfg → Except Unit (Option Cfg))) (c : Cfg) :
    applyRequestInterceptors (fs ++ gs) c
      = applyRequestInterceptors gs (applyRequestInterceptors fs c) := by
  simp [applyRequestInterceptors, List.foldl_append]

theorem applyResponseInterceptors_append
    (fs gs : List (Resp → Except Unit (Option Resp))) (r : Resp) :
    applyResponseInterceptors (fs ++ gs) r
      = applyResponseInterceptors gs (applyResponseInterceptors fs r) := by
  simp [applyResponseInterceptors, List.foldl_append]

theorem applyTransformRequest_cons
    (f : JSValue → Headers → Except Unit JSValue)
    (fs : List (JSValue → Headers → Except Unit JSValue))
    (d : JSValue) (hs : Headers) :
    applyTransformRequest (f :: fs) d hs
      = applyTransformRequest fs (jsOrKeep (f d hs) d) hs := rfl

theorem applyRequestInterceptors_cons
    (g : Cfg → Except Unit (Option Cfg))
    (gs : List (Cfg → Except Unit (Option Cfg))) (c : Cfg) :
    applyRequestInterceptors (g :: gs) c
      = applyRequestInterceptors gs (objOrKeep (g c) c) := rfl

/-- C8: hooks run strictly in registration order (a chain is the
composition of its pieces, in order); a hook returning a falsy value
leaves the current value unchanged; a hook that throws is skipped and the
chain continues from the prior value, so downstream hooks see the same
value as if the faulting hook were absent; and a request-interceptor
chain containing a faulting interceptor yields the same config as the
chain without it (the request completes using the pre-fault config). -/
theorem c8_pipeline_best_effort
    (pre post : List (JSValue → Headers → Except Unit JSValue))
    (fthrow ffalsy : JSValue → Headers → Except Unit JSValue)
    (d : JSValue) (hs : Headers)
    (ipre ipost : List (Cfg → Except Unit (Option Cfg)))
    (gthrow : Cfg → Except Unit (Option Cfg)) (c : Cfg) :
    (applyTransformRequest (pre ++ post) d hs
       = applyTransformRequest post (applyTransformRequest pre d hs) hs)
    ∧ (applyRequestInterceptors (ipre ++ ipost) c
       = applyRequestInterceptors ipost (applyRequestInterceptors ipre c))
    ∧ (∀ r, ffalsy (applyTransformRequest pre d hs) hs = .ok r → r.falsy = true →
        applyTransformRequest (pre ++ ffalsy :: post) d hs
          = applyTransformRequest (pre ++ post) d hs)
    ∧ (fthrow (applyTransformRequest pre d hs) hs = .error () →
        applyTransformRequest (pre ++ fthrow :: post) d hs
          = applyTransformRequest (pre ++ post) d hs)
    ∧ (gthrow (applyRequestInterceptors ipre c) = .error () →
        applyRequestInterceptors (ipre ++ gthrow :: ipost) c
          = applyRequestInterceptors ipost (applyRequestInterceptors ipre c)) := by
  refine ⟨applyTransformRequest_append pre post d hs,
          applyRequestInterceptors_append ipre ipost c, ?_, ?_, ?_⟩
  · intro r hr hf
    rw [applyTransformRequest_append, applyTransformRequest_append,
        applyTransformRequest_cons, hr]
    simp [jsOrKeep, hf]
  · intro hthrow
    rw [applyTransformRequest_append, applyTransformRequest_append,
        applyTransformRequest_cons, hthrow]
    simp [jsOrKeep]
  · intro hthrow
    rw [applyRequestInterceptors_append, applyRequestInterceptors_cons, hthrow]
    simp [objOrKeep]

/-- Witness for C8 at concrete hooks: an appending transform, a falsy
transform, a throwing transform, and a throwing interceptor. -/
theorem c8_pipeline_best_effort_witness :
    (applyTransformRequest ([fun _ _ => Except.ok (JSValue.str "A")] ++
        [fun _ _ => Except.ok (JSValue.str "B")]) (.str "x") []
      = applyTransformRequest [fun _ _ => Except.ok (JSValue.str "B")]
          (applyTransformRequest [fun _ _ => Except.ok (JSValue.str "A")] (.str "x") []) [])
    ∧ (applyTransformRequest ([fun _ _ => Except.ok (JSValue.str "A")] ++
        (fun _ _ => Except.ok JSValue.null) :: [fun _ _ => Except.ok (JSValue.str "B")])
          (.str "x") []
      = applyTransformRequest ([fun _ _ => Except.ok (JSValue.str "A")] ++
          [fun _ _ => Except.ok (JSValue.str "B")]) (.str "x") [])
    ∧ (applyTransformRequest ([fun _ _ => Except.ok (JSValue.str "A")] ++
        (fun _ _ => Except.error ()) :: [fun _ _ => Except.ok (JSValue.str "B")])
          (.str "x") []
      = applyTransformRequest ([fun _ _ => Except.ok (JSValue.str "A")] ++
          [fun _ _ => Except.ok (JSValue.str "B")]) (.str "x") [])
    ∧ (applyRequestInterceptors ([] ++ (fun _ => Except.error ()) :: [])
          ⟨"u", "GET", [], .omitted, 0, 0, 300, 0⟩
      = applyRequestInterceptors []
          (applyRequestInterceptors [] ⟨"u", "GET", [], .omitted, 0, 0, 300, 0⟩)) := by
  have h := c8_pipeline_best_effort
    [fun _ _ => Except.ok (JSValue.str "A")] [fun _ _ => Except.ok (JSValue.str "B")]
    (fun _ _ => Except.error ()) (fun _ _ => Except.ok JSValue.null)
    (.str "x") [] [] []
    (fun _ => Except.error ()) ⟨"u", "GET", [], .omitted, 0, 0, 300, 0⟩
  exact ⟨h.1, h.2.2.1 JSValue.null rfl rfl, h.2.2.2.1 rfl, h.2.2.2.2 rfl⟩

/-- Abstraction of `JSON.stringify` on our value model (total, so the
`catch { b = String(body) }` fallback in `makeCacheKey` is dead here). -/
def jsonStringify : JSValue → String
  | .null => "null"
  | .undefined => "undefined"
  | .bool b => if b then "true" else "false"
  | .num n => toString n
  | .str s => "\x22" ++ s ++ "\x22"
  | .obj id => "obj#" ++ toString id

/-- JS `String.prototype.toLowerCase` restricted to its ASCII behavior:
lower every character of the string. -/
def jsToLower (s : String) : String := ⟨s.data.map Char.toLower⟩

/-- JS `String.prototype.toUpperCase` restricted to its ASCII behavior. -/
def jsToUpper (s : String) : String := ⟨s.data.map Char.toUpper⟩

/-- `makeCacheKey(method, url, body)` (source lines 122-126):
`` `${method.toUpperCase()}::${url}::${b}` `` where `b` is `""` for a
falsy body and the serialized body otherwise. -/
def makeCacheKey (method url : String) (body : JSValue) : String :=
  let b := if body.falsy then "" else jsonStringify body
  jsToUpper method ++ "::" ++ url ++ "::" ++ b

/-- A cache entry: `{ value, expiresAt }`; `expiresAt = 0` encodes the
JS-falsy "no expiry" (`null`), matching the `entry.expiresAt &&` guard. -/
structure CacheEntry where
  value : Resp
  expiresAt : Nat
deriving DecidableEq, Repr

/-- The `memoryCache` Map, as an association list with unique keys. -/
abbrev Cache := List (String × CacheEntry)

def mapSet (m : Cache) (k : String) (v : CacheEntry) : Cache :=
  if (m.lookup k).isSome then
    m.map (fun p => if p.1 = k then (k, v) else p)
  else m ++ [(k, v)]

def mapDelete (m : Cache) (k : String) : Cache :=
  m.filter (fun p => p.1 ≠ k)

/-- `getCached(key)` (source lines 128-136): absent gives `null`; an
entry with a truthy `expiresAt` in the past is deleted and reported
absent (lazy eviction); otherwise the stored value is returned.  The
returned `Cache` is the map after the lookup's side effect. -/
def getCached (m : Cache) (now : Nat) (k : String) : Option Resp × Cache :=
  match m.lookup k with
  | none => (none, m)
  | some e =>
      if e.expiresAt ≠ 0 ∧ now > e.expiresAt then (none, mapDelete m k)
      else (some e.value, m)

/-- Response shaping on the network path (source lines 377-381):
`response.data = applyTransformResponse(response.data, response)` (the
transforms see the response with its pre-transform data), then
`applyResponseInterceptors(response)`. -/
def respondNetwork (tHooks : List (JSValue → Resp → Except Unit JSValue))
    (iHooks : List (Resp → Except Unit (Option Resp))) (res : Resp) : Resp :=
  let d := applyTransformResponse tHooks res.data res
  applyResponseInterceptors iHooks { res with data := d }

/-- Response shaping on the cache-hit path (source lines 326-329):
interceptors first, then
`response.data = applyTransformResponse(response.data, response) || response.data`. -/
def respondCached (tHooks : List (JSValue → Resp → Except Unit JSValue))
    (iHooks : List (Resp → Except Unit (Option Resp))) (cached : Resp) : Resp :=
  let r2 := applyResponseInterceptors iHooks cached
  let d := applyTransformResponse tHooks r2.data r2
  { r2 with data := if d.falsy then r2.data else d }

/-- Modelled from the spec's words (for the refinement check in C7): on
every returned response "transform data first, then let interceptors see
the fully-shaped response". -/
def respondSpecOrder (tHooks : List (JSValue → Resp → Except Unit JSValue))
    (iHooks : List (Resp → Except Unit (Option Resp))) (res : Resp) : Resp :=
  let d := applyTransformResponse tHooks res.data res
  applyResponseInterceptors iHooks { res with data := d }

/-- The cache write performed by the task on a fully successful GET
(source lines 393-398). -/
def cacheWrite (m : Cache) (k : String) (cacheTTL : Nat) (now : Nat)
    (finalResponse : Resp) : Cache :=
  mapSet m k ⟨finalResponse, if cacheTTL > 0 then now + cacheTTL * 1000 else 0⟩

/-- The cache-lookup phase of `handleFetchRaw` (source lines 320-331):
only a `GET` config with positive TTL consults the cache; a hit is
shaped by `respondCached` and returned without enqueueing the task. -/
def handleCacheLookup (tHooks : List (JSValue → Resp → Except Unit JSValue))
    (iHooks : List (Resp → Except Unit (Option Resp)))
    (m : Cache) (now : Nat) (cfgMethod key : String) (cacheTTL : Nat) :
    Option Resp × Cache :=
  if cfgMethod = "GET" ∧ cacheTTL > 0 then
    match getCached m now key with
    | (some v, m2) => (some (respondCached tHooks iHooks v), m2)
    | (none, m2) => (none, m2)
  else (none, m)

/-- Body extraction of `handleFetchRaw` (source line 259):
`("body" in opts) ? opts.body : (opts.data !== undefined ? opts.data : undefined)`.
`some v` models a present key (whose value may itself be `undefined`). -/
def extractBody (bodyField dataField : Option JSValue) : JSValue :=
  match bodyField with
  | some v => v
  | none =>
      match dataField with
      | some d => if d = .undefined then .undefined else d
      | none => .undefined

/-- JS `String.prototype.includes`. -/
def jsIncludes (s sub : String) : Bool := decide (List.IsInfix sub.data s.data)

/-- The case-insensitive content-type lookup of `handleFetchRaw`
(source lines 277-278). -/
def findContentType (headers : Headers) : String :=
  match headers.find? (fun p => jsToLower p.1 = "content-type") with
  | some p => p.2
  | none => ""

/-- The body guard of `handleFetchRaw` (source lines 275-284): attach the
body only when it is non-nullish and the (verbatim, not uppercased)
method is neither `"GET"` nor `"HEAD"`; JSON-stringify a non-string body
when the content type is JSON-like. -/
def computedBody (method : String) (headers : Headers) (body : JSValue) : SentBody :=
  if body.isNullish = false ∧ method ≠ "GET" ∧ method ≠ "HEAD" then
    let ct := findContentType headers
    if ct ≠ "" ∧ jsIncludes ct "application/json" ∧ body.isString = false then
      .jsonString body
    else .raw body
  else .omitted

/-- The request-side sequence of `handleFetchRaw` (source lines 256-318):
the transform-request chain shapes the body, the transport options and
config are built (with `options.method = method.toUpperCase()` but the
body guard testing the raw `method`), and the request interceptors then
run over that config. -/
def buildRequestCfg (trHooks : List (JSValue → Headers → Except Unit JSValue))
    (riHooks : List (Cfg → Except Unit (Option Cfg)))
    (url method : String) (headers : Headers) (rawBody : JSValue)
    (timeout retries retryDelay cacheTTL : Nat) : Cfg :=
  let body := applyTransformRequest trHooks rawBody headers
  let cfg0 : Cfg :=
    ⟨url, jsToUpper method, headers, computedBody method headers body,
     timeout, retries, retryDelay, cacheTTL⟩
  applyRequestInterceptors riHooks cfg0

/-- The lowercase verb list of the public wrappers (source line 410):
each `api.<verb>` calls `handleFetchRaw(<verb>, ...)` verbatim. -/
def verbMethods : List String := ["get", "post", "put", "patch", "delete", "head"]

/-- The method normalization of `api.request` (source line 430):
`(options.method || "GET").toLowerCase()`. -/
def requestMethod (optMethod : Option String) : String :=
  jsToLower (match optMethod with
             | some m => if m = "" then "GET" else m
             | none => "GET")

/-- How one transport attempt of `fetchWithRetry` terminates, as the
retry loop observes it: `fetch` either threw — with `some cause` when the
merged controller's signal had fired (the `ac.signal.aborted &&
err.name === "AbortError"` guard), recording what fired it — or replied
with a response. -/
inductive AbortCause where
  | timeout
  | external
deriving DecidableEq, Repr

inductive AttemptResult where
  | threw (abortGuard : Option AbortCause)
  | replied (res : Resp)
deriving DecidableEq, Repr

/-- The error the retry loop propagates to the task's `catch` branch. -/
inductive FetchErr where
  | abortErr (cause : AbortCause)
  | netErr
deriving DecidableEq, Repr

/-- The `error` field of a failure result. -/
inductive ErrKind where
  | transport (e : FetchErr)
  | http (status : Nat)
deriving DecidableEq, Repr

/-- `runGlobalErrors(err, cfg)` (source lines 188-192): every registered
handler is invoked exactly once, a faulting handler being swallowed; the
returned number counts the handler invocations. -/
def runGlobalErrors (handlers : List (Except Unit Unit)) : Nat :=
  handlers.foldl (fun n _h => n + 1) 0

/-- What the orchestrating task resolves to, plus how many global error
handler invocations it performed. -/
structure TaskOut where
  ok : Bool
  status : Nat
  data : JSValue
  errKind : Option ErrKind
  notified : Nat
deriving DecidableEq, Repr

/-- The task body of `handleFetchRaw` (source lines 334-401), given the
outcome of `fetchWithRetry`: a throw becomes a resolved failure result
with status 0 and notifies the global handlers; a non-ok response becomes
a resolved failure result carrying the HTTP status and notifies them; an
ok response is shaped, returned and (for a positive-TTL GET) cached. -/
def runTask (handlers : List (Except Unit Unit))
    (tHooks : List (JSValue → Resp → Except Unit JSValue))
    (iHooks : List (Resp → Except Unit (Option Resp)))
    (m : Cache) (cfgMethod key : String) (cacheTTL : Nat) (settleNow : Nat)
    (fwrOut : Except FetchErr Resp) : TaskOut × Cache :=
  match fwrOut with
  | .error e =>
      (⟨false, 0, .null, some (.transport e), runGlobalErrors handlers⟩, m)
  | .ok res =>
      let fr := respondNetwork tHooks iHooks res
      if res.ok = false then
        (⟨false, res.status, fr.data, some (.http res.status),
          runGlobalErrors handlers⟩, m)
      else
        let m2 := if cfgMethod = "GET" ∧ cacheTTL > 0 then
                    cacheWrite m key cacheTTL settleNow fr
                  else m
        (⟨fr.ok, fr.status, fr.data, none, 0⟩, m2)

/-- `backoff + jitter` (source lines 234-235 and 244-245):
`retryDelay * Math.pow(2, attempt - 1) + Math.floor(Math.random() * retryDelay)`,
with the `Math.random()` sample given as a rational in `[0, 1)`. -/
def backoffDelay (retryDelay : Nat) (rand : ℚ) (attempt : Nat) : Nat :=
  retryDelay * 2 ^ (attempt - 1) + Nat.floor (rand * (retryDelay : ℚ))

/-- The observable outcome of one run of the `fetchWithRetry` loop:
the propagated result, the number of physical transport attempts made,
and the inserted backoff delays, in order. -/
structure FwrOut where
  result : Except FetchErr Resp
  attempts : Nat
  delays : List Nat
deriving Repr

/-- The `while (true)` loop of `fetchWithRetry` (source lines 207-252),
from attempt number `attempt` on.  Each attempt's termination is given by
`oracle`; `rand` supplies the per-attempt `Math.random()` sample.
An abort (merged signal fired and the error is an `AbortError`) is
rethrown immediately; any other thrown error retries while
`attempt <= retries`; a received response retries only while
`attempt <= retries` and its status is in `retryOn`. -/
def fetchWithRetryLoop (oracle : Nat → AttemptResult) (rand : Nat → ℚ)
    (retries retryDelay : Nat) (retryOn : List Nat) (attempt : Nat) : FwrOut :=
  match oracle attempt with
  | .threw (some cause) => ⟨.error (.abortErr cause), 1, []⟩
  | .threw none =>
      if ha : attempt ≤ retries then
        let d := backoffDelay retryDelay (rand attempt) attempt
        let rest := fetchWithRetryLoop oracle rand retries retryDelay retryOn (attempt + 1)
        ⟨rest.result, rest.attempts + 1, d :: rest.delays⟩
      else ⟨.error .netErr, 1, []⟩
  | .replied res =>
      if hs : res.ok = false ∧ attempt ≤ retries ∧ res.status ∈ retryOn then
        let d := backoffDelay retryDelay (rand attempt) attempt
        let rest := fetchWithRetryLoop oracle rand retries retryDelay retryOn (attempt + 1)
        ⟨rest.result, rest.attempts + 1, d :: rest.delays⟩
      else ⟨.ok res, 1, []⟩
termination_by retries + 1 - attempt
decreasing_by
  · omega
  · obtain ⟨-, h2, -⟩ := hs; omega

/-- `fetchWithRetry(cfg)` (source line 204-207): the attempt counter
starts at 1. -/
def fetchWithRetry (oracle : Nat → AttemptResult) (rand : Nat → ℚ)
    (retries retryDelay : Nat) (retryOn : List Nat) : FwrOut :=
  fetchWithRetryLoop oracle rand retries retryDelay retryOn 1

/-- The concurrency queue's shared state (source lines 92-93):
`activeCount` (kept as an integer so that its non-negativity is a
provable invariant, not a typing artifact), the ids of running tasks,
the FIFO wait list, and the id the next submission receives (ids are
assigned in arrival order). -/
structure QState where
  active : Int
  running : List Nat
  waiting : List Nat
  nextId : Nat
deriving DecidableEq, Repr

def initQ : QState := ⟨0, [], [], 0⟩

/-- `activeCount < defaultConfig.maxConcurrent`; `none` models the
default `Infinity`. -/
def belowMax (active : Int) : Option Nat → Bool
  | none => true
  | some n => active < (n : Int)

inductive QEvent where
  | submit
  | settle (id : Nat) (success : Bool)
deriving DecidableEq, Repr

/-- One transition of `enqueue` (source lines 95-110).  `submit`: if
`activeCount < maxConcurrent` the task runs at once, else it is appended
to the wait list.  `settle id ok`: the `.finally` of a running task —
regardless of `ok` — decrements `activeCount` and, if the wait list is
non-empty, dequeues its head and runs it (which increments
`activeCount` again). -/
def qStep (maxC : Option Nat) (s : QState) : QEvent → QState
  | .submit =>
      if belowMax s.active maxC then
        { s with active := s.active + 1, running := s.running ++ [s.nextId],
                 nextId := s.nextId + 1 }
      else { s with waiting := s.waiting ++ [s.nextId], nextId := s.nextId + 1 }
  | .settle id _success =>
      if id ∈ s.running then
        let s1 : QState := { s with active := s.active - 1, running := s.running.erase id }
        match s1.waiting with
        | [] => s1
        | w :: ws =>
            { s1 with active := s1.active + 1, running := s1.running ++ [w], waiting := ws }
      else s

inductive QReachable (maxC : Option Nat) : QState → Prop where
  | init : QReachable maxC initQ
  | step : ∀ s e, QReachable maxC s → QReachable maxC (qStep maxC s e)

/-- The queue invariant: `activeCount` counts the running tasks, it never
exceeds a finite `maxConcurrent`, the wait list is in strictly increasing
arrival order, and every waiting id is older than the next to be
assigned. -/
def QInv (maxC : Option Nat) (s : QState) : Prop :=
  s.active = (s.running.length : Int)
  ∧ (∀ n, maxC = some n → s.active ≤ (n : Int))
  ∧ List.Pairwise (· < ·) s.waiting
  ∧ (∀ i ∈ s.waiting, i < s.nextId)

/-- An `AbortSignal`, reduced to the instant (if any) at which it was
aborted. -/
structure SignalState where
  abortedAt : Option Nat
deriving DecidableEq, Repr

/-- `signal.addEventListener("abort", cb, { once: true })`: the callback
fires (at the abort instant) only if the listener was registered strictly
before the signal aborted; on an already-aborted signal it never fires. -/
def listenerFireTime (sig : SignalState) (regTime : Nat) : Option Nat :=
  match sig.abortedAt with
  | some ta => if regTime < ta then some ta else none
  | none => none

def optMin : Option Nat → Option Nat → Option Nat
  | none, b => b
  | a, none => a
  | some x, some y => some (min x y)

/-- One transport attempt as set up by `fetchWithRetry`
(source lines 209-224): a fresh controller `ac`, an abort listener hooked
on `options.signal` at the attempt's start, an optional timeout timer,
and the transport itself, which would complete after `fetchDur` with
`transportRes` if not aborted. -/
structure AttemptEnv where
  optSignal : Option SignalState
  start : Nat
  fetchDur : Nat
  transportRes : Resp
  timeout : Nat
deriving DecidableEq, Repr

/-- When the merged controller `ac` aborts: the earlier of the listener
relay from `options.signal` and the timeout timer (`timeout = 0` means
no timer). -/
def acAbortTime (env : AttemptEnv) : Option Nat :=
  optMin
    (match env.optSignal with
     | some sig => listenerFireTime sig env.start
     | none => none)
    (if env.timeout > 0 then some (env.start + env.timeout) else none)

/-- How the attempt terminates: `fetch` rejects with an `AbortError`
exactly when `ac` aborts before the transport completes (the recorded
cause notes which source fired; on a tie the external relay is charged);
otherwise the transport response is returned. -/
def attemptOutcome (env : AttemptEnv) : AttemptResult :=
  match acAbortTime env with
  | none => .replied env.transportRes
  | some ta =>
      if ta < env.start + env.fetchDur then
        .threw (some (if (match env.optSignal with
                          | some sig => listenerFireTime sig env.start
                          | none => none) = some ta
                      then .external else .timeout))
      else .replied env.transportRes

theorem toNat_ofNat_valid (n : Nat) (h : n.isValidChar) : (Char.ofNat n).toNat = n := by
  rw [Char.ofNat, dif_pos h]; rfl

/-- ASCII lowering never produces a character in the uppercase range. -/
theorem toLower_not_upper (c : Char) :
    ¬(65 ≤ (Char.toLower c).toNat ∧ (Char.toLower c).toNat ≤ 90) := by
  unfold Char.toLower
  by_cases h : c.toNat ≥ 65 ∧ c.toNat ≤ 90
  · rw [if_pos h]
    have hv : (c.toNat + 32).isValidChar := Or.inl (by omega)
    rw [toNat_ofNat_valid _ hv]
    omega
  · rw [if_neg h]
    omega

theorem jsToLower_ne_GET (s : String) : jsToLower s ≠ "GET" := by
  intro h
  have hd : s.data.map Char.toLower = "GET".data := congrArg String.data h
  have hm : 'G' ∈ s.data.map Char.toLower := by rw [hd]; decide
  obtain ⟨c, _, hc⟩ := List.mem_map.mp hm
  have hup := toLower_not_upper c
  rw [hc] at hup
  exact hup (by decide)

theorem jsToLower_ne_HEAD (s : String) : jsToLower s ≠ "HEAD" := by
  intro h
  have hd : s.data.map Char.toLower = "HEAD".data := congrArg String.data h
  have hm : 'H' ∈ s.data.map Char.toLower := by rw [hd]; decide
  obtain ⟨c, _, hc⟩ := List.mem_map.mp hm
  have hup := toLower_not_upper c
  rw [hc] at hup
  exact hup (by decide)

/-- C10: every verb wrapper hands its lowercase verb name to
`handleFetchRaw` verbatim, and `api.request` lowercases `options.method`,
so the raw method tested by the body guard is never `"GET"` or `"HEAD"`;
hence a non-nullish body extracted from `opts.body` / `opts.data` is
attached to the transport options (as raw or JSON-stringified body)
rather than dropped — even for `api.get` and `api.head`. -/
theorem c10_lowercase_method_attaches_body :
    (∀ m ∈ verbMethods, m ≠ "GET" ∧ m ≠ "HEAD")
    ∧ (∀ optM, requestMethod optM ≠ "GET" ∧ requestMethod optM ≠ "HEAD")
    ∧ (∀ m ∈ verbMethods, ∀ (headers : Headers) (bodyField dataField : Option JSValue),
        (extractBody bodyField dataField).isNullish = false →
        computedBody m headers (extractBody bodyField dataField) ≠ .omitted)
    ∧ (∀ (m : String) (headers : Headers) (body : JSValue),
        body.isNullish = false → m ≠ "GET" → m ≠ "HEAD" →
        computedBody m headers body ≠ .omitted)
    ∧ (∀ m ∈ verbMethods, ∀ (ri : List (Cfg → Except Unit (Option Cfg)))
          (url : String) (headers : Headers) (rawBody : JSValue)
          (t r rd cc : Nat),
        rawBody.isNullish = false →
        buildRequestCfg [] ri url m headers rawBody t r rd cc
          = applyRequestInterceptors ri
              ⟨url, jsToUpper m, headers, computedBody m headers rawBody, t, r, rd, cc⟩
        ∧ computedBody m headers rawBody ≠ .omitted) := by
  have hguard : ∀ (m : String) (headers : Headers) (body : JSValue),
      body.isNullish = false → m ≠ "GET" → m ≠ "HEAD" →
      computedBody m headers body ≠ .omitted := by
    intro m headers body hb hg hh
    unfold computedBody
    rw [if_pos ⟨hb, hg, hh⟩]
    dsimp only
    split <;> simp
  have hverb : ∀ m ∈ verbMethods, m ≠ "GET" ∧ m ≠ "HEAD" := by decide
  refine ⟨hverb, ?_, ?_, hguard, ?_⟩
  · intro optM
    unfold requestMethod
    exact ⟨jsToLower_ne_GET _, jsToLower_ne_HEAD _⟩
  · intro m hm headers bodyField dataField hb
    exact hguard m headers _ hb (hverb m hm).1 (hverb m hm).2
  · intro m hm ri url headers rawBody t r rd cc hb
    exact ⟨rfl, hguard m headers rawBody hb (hverb m hm).1 (hverb m hm).2⟩

/-- Witness for C10: a string body supplied to `api.get` survives the
body guard. -/
theorem c10_lowercase_method_attaches_body_witness :
    requestMethod (some "GET") ≠ "GET"
    ∧ computedBody "get" [] (extractBody (some (.str "payload")) none) ≠ .omitted := by
  have h := c10_lowercase_method_attaches_body
  exact ⟨(h.2.1 (some "GET")).1,
         h.2.2.1 "get" (by decide) [] (some (.str "payload")) none rfl⟩

theorem foldl_count (hs : List (Except Unit Unit)) :
    ∀ n : Nat, hs.foldl (fun n _h => n + 1) n = n + hs.length := by
  induction hs with
  | nil => intro n; simp
  | cons h t ih => intro n; simp [List.foldl_cons, ih]; omega

/-- Every registered global error handler is invoked exactly once per
failure, whatever any individual handler does. -/
theorem runGlobalErrors_eq_length (hs : List (Except Unit Unit)) :
    runGlobalErrors hs = hs.length := by
  simpa using foldl_count hs 0

/-- C1: the task of `handleFetchRaw` always resolves.  If the transport
(after retries) threw — network failure or abort — the resolved value is
the uniform failure record with `ok = false`, `status = 0` (no HTTP reply),
`data = null` and the thrown error, and every registered global error
handler is invoked once.  If an HTTP reply with an error status arrived,
the resolved value is the uniform failure record carrying that status and
the shaped data, and every handler is invoked once.  On a successful
reply no handler runs; and the number of handler invocations never
depends on the interceptor/transform hooks, so a faulting hook cannot
trigger (or suppress) the global handlers. -/
theorem c1_failures_resolve_uniformly
    (handlers : List (Except Unit Unit))
    (tH : List (JSValue → Resp → Except Unit JSValue))
    (iH : List (Resp → Except Unit (Option Resp)))
    (m : Cache) (M key : String) (ttl tset : Nat)
    (fwrOut : Except FetchErr Resp) :
    (∀ e, fwrOut = .error e →
      runTask handlers tH iH m M key ttl tset fwrOut
        = (⟨false, 0, .null, some (.transport e), handlers.length⟩, m))
    ∧ (∀ res, fwrOut = .ok res → res.ok = false →
      (runTask handlers tH iH m M key ttl tset fwrOut).1
        = ⟨false, res.status, (respondNetwork tH iH res).data,
           some (.http res.status), handlers.length⟩)
    ∧ (∀ res, fwrOut = .ok res → res.ok = true →
      (runTask handlers tH iH m M key ttl tset fwrOut).1.notified = 0)
    ∧ (∀ (tH' : List (JSValue → Resp → Except Unit JSValue))
         (iH' : List (Resp → Except Unit (Option Resp))),
      (runTask handlers tH iH m M key ttl tset fwrOut).1.notified
        = (runTask handlers tH' iH' m M key ttl tset fwrOut).1.notified) := by
  refine ⟨?_, ?_, ?_, ?_⟩
  · intro e he
    subst he
    simp [runTask, runGlobalErrors_eq_length]
  · intro res hres hok
    subst hres
    simp [runTask, hok, runGlobalErrors_eq_length]
  · intro res hres hok
    subst hres
    simp [runTask, hok]
  · intro tH' iH'
    match fwrOut with
    | .error e => simp [runTask]
    | .ok res =>
        by_cases hok : res.ok = false
        · simp [runTask, hok]
        · simp [runTask, hok]

/-- Witness for C1: two handlers (one of them faulting), a faulting
transform hook, and a transport failure: the task resolves to the
status-0 failure record and both handlers are notified; on a successful
response with the same faulting hook, no handler is notified. -/
theorem c1_failures_resolve_uniformly_witness :
    runTask [Except.ok (), Except.error ()] [fun _ _ => Except.error ()] [] [] "GET" "k" 0 0
        (.error .netErr)
      = (⟨false, 0, .null, some (.transport .netErr), 2⟩, [])
    ∧ (runTask [Except.ok (), Except.error ()] [fun _ _ => Except.error ()] [] [] "GET" "k" 0 0
        (.ok ⟨true, 200, "OK", .null⟩)).1.notified = 0 := by
  refine ⟨?_, ?_⟩
  · exact (c1_failures_resolve_uniformly [Except.ok (), Except.error ()]
      [fun _ _ => Except.error ()] [] [] "GET" "k" 0 0 (.error .netErr)).1 .netErr rfl
  · exact (c1_failures_resolve_uniformly [Except.ok (), Except.error ()]
      [fun _ _ => Except.error ()] [] [] "GET" "k" 0 0
      (.ok ⟨true, 200, "OK", .null⟩)).2.2.1 ⟨true, 200, "OK", .null⟩ rfl rfl

/-- C5: the cache lifecycle of a GET request with `cache = T > 0`.  The
first request (empty cache) misses, so the transport task runs; on its
success at time `tw` the entry is stored under the request fingerprint
with expiry `tw + T·1000` ms.  A second identical request — same
fingerprint — looked up at `t1 ≤ tw + T·1000` hits: it resolves to the
previously cached value and leaves the cache unchanged (hence no new
transport call).  Looked up at `t1 > tw + T·1000`, the entry is treated
as absent and deleted lazily at lookup, and the miss sends the request to
the transport again.  (Hooks are empty here so the hit value is exactly
the cached one.) -/
theorem c5_cache_ttl
    (handlers : List (Except Unit Unit)) (url : String) (b : JSValue)
    (T tw t1 : Nat) (res : Resp) (hT : 0 < T) (hok : res.ok = true) :
    (∀ t0, (handleCacheLookup [] [] [] t0 "GET" (makeCacheKey "GET" url b) T).1 = none)
    ∧ (runTask handlers [] [] [] "GET" (makeCacheKey "GET" url b) T tw (.ok res)).2
        = [(makeCacheKey "GET" url b, ⟨res, tw + T * 1000⟩)]
    ∧ (t1 ≤ tw + T * 1000 →
        handleCacheLookup [] [] [(makeCacheKey "GET" url b, ⟨res, tw + T * 1000⟩)]
            t1 "GET" (makeCacheKey "GET" url b) T
          = (some res, [(makeCacheKey "GET" url b, ⟨res, tw + T * 1000⟩)]))
    ∧ (t1 > tw + T * 1000 →
        handleCacheLookup [] [] [(makeCacheKey "GET" url b, ⟨res, tw + T * 1000⟩)]
            t1 "GET" (makeCacheKey "GET" url b) T
          = (none, [])) := by
  have hlk : List.lookup (makeCacheKey "GET" url b)
      [(makeCacheKey "GET" url b, (⟨res, tw + T * 1000⟩ : CacheEntry))]
      = some ⟨res, tw + T * 1000⟩ := by simp [List.lookup]
  refine ⟨?_, ?_, ?_, ?_⟩
  · intro t0
    simp [handleCacheLookup, getCached, hT]
  · have hfr : respondNetwork [] [] res = res := rfl
    simp only [runTask, hfr]
    rw [hok]
    simp [cacheWrite, mapSet, hT]
  · intro h1
    have hget : getCached [(makeCacheKey "GET" url b, ⟨res, tw + T * 1000⟩)] t1
        (makeCacheKey "GET" url b)
        = (some res, [(makeCacheKey "GET" url b, ⟨res, tw + T * 1000⟩)]) := by
      unfold getCached
      rw [hlk]
      dsimp only
      rw [if_neg (by omega : ¬((tw + T * 1000 ≠ 0) ∧ t1 > tw + T * 1000))]
    have hrc : respondCached ([] : List (JSValue → Resp → Except Unit JSValue))
        ([] : List (Resp → Except Unit (Option Resp))) res = res := by
      unfold respondCached
      simp [applyResponseInterceptors, applyTransformResponse]
    unfold handleCacheLookup
    rw [if_pos ⟨rfl, hT⟩, hget]
    dsimp only
    rw [hrc]
  · intro h1
    have hget : getCached [(makeCacheKey "GET" url b, ⟨res, tw + T * 1000⟩)] t1
        (makeCacheKey "GET" url b)
        = (none, []) := by
      unfold getCached
      rw [hlk]
      dsimp only
      rw [if_pos (⟨by omega, h1⟩ : (tw + T * 1000 ≠ 0) ∧ t1 > tw + T * 1000)]
      simp [mapDelete]
    unfold handleCacheLookup
    rw [if_pos ⟨rfl, hT⟩, hget]

/-- Witness for C5 at `T = 10` seconds, write time 0: a lookup at 5000 ms
hits with the cached response; a lookup at 10001 ms finds the entry
expired, deletes it and misses. -/
theorem c5_cache_ttl_witness :
    (runTask [] [] [] [] "GET" (makeCacheKey "GET" "u" .null) 10 0
        (.ok ⟨true, 200, "OK", .str "d"⟩)).2
      = [(makeCacheKey "GET" "u" .null, ⟨⟨true, 200, "OK", .str "d"⟩, 10000⟩)]
    ∧ handleCacheLookup [] [] [(makeCacheKey "GET" "u" .null,
          ⟨⟨true, 200, "OK", .str "d"⟩, 10000⟩)] 5000 "GET" (makeCacheKey "GET" "u" .null) 10
      = (some ⟨true, 200, "OK", .str "d"⟩,
         [(makeCacheKey "GET" "u" .null, ⟨⟨true, 200, "OK", .str "d"⟩, 10000⟩)])
    ∧ handleCacheLookup [] [] [(makeCacheKey "GET" "u" .null,
          ⟨⟨true, 200, "OK", .str "d"⟩, 10000⟩)] 10001 "GET" (makeCacheKey "GET" "u" .null) 10
      = (none, []) := by
  have h := c5_cache_ttl [] "u" .null 10 0 5000 ⟨true, 200, "OK", .str "d"⟩
    (by decide) rfl
  have h2 := c5_cache_ttl [] "u" .null 10 0 10001 ⟨true, 200, "OK", .str "d"⟩
    (by decide) rfl
  exact ⟨h.2.1, h.2.2.1 (by decide), h2.2.2.2 (by decide)⟩

/-- C7, counterexample to the claim as stated: on the cache-hit path the
response interceptors run BEFORE the transform-response chain, so with a
transform that appends `"T"` to a string datum and an interceptor that
appends `"I"`, a cached response with data `"x"` comes out as `"xIT"`,
not the `"xTI"` that transform-first ordering (the spec's stated order,
`respondSpecOrder`) would produce. -/
theorem c7_counterexample :
    respondCached
        [fun d _ => Except.ok (match d with
                               | JSValue.str s => JSValue.str (s ++ "T")
                               | v => v)]
        [fun r => Except.ok (some { r with
            data := match r.data with
                    | JSValue.str s => JSValue.str (s ++ "I")
                    | v => v })]
        ⟨true, 200, "OK", .str "x"⟩
      ≠ respondSpecOrder
        [fun d _ => Except.ok (match d with
                               | JSValue.str s => JSValue.str (s ++ "T")
                               | v => v)]
        [fun r => Except.ok (some { r with
            data := match r.data with
                    | JSValue.str s => JSValue.str (s ++ "I")
                    | v => v })]
        ⟨true, 200, "OK", .str "x"⟩ := by decide

/-- C7 (amended): on the request side the transform-request chain shapes
the body before the request interceptors see the config; on the network
response path the transform-response chain runs first and the
interceptors then see the fully-shaped response (exactly the spec's
order); but on the cache-hit path the order is reversed: the interceptors
run on the raw cached response and the transform chain is applied to the
intercepted response's data afterwards (with a falsy transform result
keeping the prior data). -/
theorem c7_pipeline_order_amended
    (tr : List (JSValue → Headers → Except Unit JSValue))
    (ri : List (Cfg → Except Unit (Option Cfg)))
    (url m : String) (headers : Headers) (rawBody : JSValue)
    (t r rd cc : Nat)
    (tH : List (JSValue → Resp → Except Unit JSValue))
    (iH : List (Resp → Except Unit (Option Resp))) (res cached : Resp) :
    (buildRequestCfg tr ri url m headers rawBody t r rd cc
       = applyRequestInterceptors ri
           ⟨url, jsToUpper m, headers,
            computedBody m headers (applyTransformRequest tr rawBody headers),
            t, r, rd, cc⟩)
    ∧ (respondNetwork tH iH res = respondSpecOrder tH iH res)
    ∧ (respondCached tH iH cached
        = { applyResponseInterceptors iH cached with
            data :=
              if (applyTransformResponse tH (applyResponseInterceptors iH cached).data
                    (applyResponseInterceptors iH cached)).falsy
              then (applyResponseInterceptors iH cached).data
              else applyTransformResponse tH (applyResponseInterceptors iH cached).data
                     (applyResponseInterceptors iH cached) }) :=
  ⟨rfl, rfl, rfl⟩

theorem fwrLoop_abort (oracle : Nat → AttemptResult) (rand : Nat → ℚ)
    (retries d : Nat) (rOn : List Nat) (a : Nat) (cause : AbortCause)
    (h : oracle a = .threw (some cause)) :
    fetchWithRetryLoop oracle rand retries d rOn a
      = ⟨.error (.abortErr cause), 1, []⟩ := by
  rw [fetchWithRetryLoop, h]

theorem fwrLoop_net_retry (oracle : Nat → AttemptResult) (rand : Nat → ℚ)
    (retries d : Nat) (rOn : List Nat) (a : Nat)
    (h : oracle a = .threw none) (ha : a ≤ retries) :
    fetchWithRetryLoop oracle rand retries d rOn a
      = ⟨(fetchWithRetryLoop oracle rand retries d rOn (a + 1)).result,
         (fetchWithRetryLoop oracle rand retries d rOn (a + 1)).attempts + 1,
         backoffDelay d (rand a) a
           :: (fetchWithRetryLoop oracle rand retries d rOn (a + 1)).delays⟩ := by
  rw [fetchWithRetryLoop, h]
  simp [ha]

theorem fwrLoop_net_exhausted (oracle : Nat → AttemptResult) (rand : Nat → ℚ)
    (retries d : Nat) (rOn : List Nat) (a : Nat)
    (h : oracle a = .threw none) (ha : ¬ a ≤ retries) :
    fetchWithRetryLoop oracle rand retries d rOn a = ⟨.error .netErr, 1, []⟩ := by
  rw [fetchWithRetryLoop, h]
  simp [ha]

theorem fwrLoop_status_retry (oracle : Nat → AttemptResult) (rand : Nat → ℚ)
    (retries d : Nat) (rOn : List Nat) (a : Nat) (res : Resp)
    (h : oracle a = .replied res)
    (hs : res.ok = false ∧ a ≤ retries ∧ res.status ∈ rOn) :
    fetchWithRetryLoop oracle rand retries d rOn a
      = ⟨(fetchWithRetryLoop oracle rand retries d rOn (a + 1)).result,
         (fetchWithRetryLoop oracle rand retries d rOn (a + 1)).attempts + 1,
         backoffDelay d (rand a) a
           :: (fetchWithRetryLoop oracle rand retries d rOn (a + 1)).delays⟩ := by
  rw [fetchWithRetryLoop, h]
  simp [hs]

theorem fwrLoop_final_response (oracle : Nat → AttemptResult) (rand : Nat → ℚ)
    (retries d : Nat) (rOn : List Nat) (a : Nat) (res : Resp)
    (h : oracle a = .replied res)
    (hs : ¬(res.ok = false ∧ a ≤ retries ∧ res.status ∈ rOn)) :
    fetchWithRetryLoop oracle rand retries d rOn a = ⟨.ok res, 1, []⟩ := by
  rw [fetchWithRetryLoop, h]
  simp only [dif_neg hs]

/-- Under a persistently failing (non-abort) transport, the loop started
at attempt `a ≤ retries + 1` makes exactly `retries + 2 - a` attempts and
then propagates the network error. -/
theorem fwrLoop_persistent (oracle : Nat → AttemptResult) (rand : Nat → ℚ)
    (retries d : Nat) (rOn : List Nat)
    (hfail : ∀ n, oracle n = .threw none) :
    ∀ k a, retries + 1 - a = k → a ≤ retries + 1 →
      (fetchWithRetryLoop oracle rand retries d rOn a).attempts = retries + 2 - a
      ∧ (fetchWithRetryLoop oracle rand retries d rOn a).result = .error .netErr := by
  intro k
  induction k with
  | zero =>
      intro a hk ha
      rw [fwrLoop_net_exhausted oracle rand retries d rOn a (hfail a) (by omega)]
      constructor
      · simp; omega
      · rfl
  | succ n ih =>
      intro a hk ha
      rw [fwrLoop_net_retry oracle rand retries d rOn a (hfail a) (by omega)]
      obtain ⟨iha, ihr⟩ := ih (a + 1) (by omega) (by omega)
      constructor
      · simp [iha]; omega
      · simpa using ihr

/-- In every execution, the loop started at attempt `a` makes at most
`retries + 2 - a` attempts (and at most `k + 1` where
`k = retries + 1 - a` is the number of retries still allowed). -/
theorem fwrLoop_attempts_le (oracle : Nat → AttemptResult) (rand : Nat → ℚ)
    (retries d : Nat) (rOn : List Nat) :
    ∀ k a, retries + 1 - a = k →
      (fetchWithRetryLoop oracle rand retries d rOn a).attempts ≤ k + 1 := by
  intro k
  induction k with
  | zero =>
      intro a hk
      match horacle : oracle a with
      | .threw (some c) =>
          rw [fwrLoop_abort oracle rand retries d rOn a c horacle]
      | .threw none =>
          rw [fwrLoop_net_exhausted oracle rand retries d rOn a horacle (by omega)]
      | .replied res =>
          rw [fwrLoop_final_response oracle rand retries d rOn a res horacle
              (by intro hcon; omega)]
  | succ n ih =>
      intro a hk
      match horacle : oracle a with
      | .threw (some c) =>
          rw [fwrLoop_abort oracle rand retries d rOn a c horacle]
          dsimp only
          omega
      | .threw none =>
          by_cases ha : a ≤ retries
          · rw [fwrLoop_net_retry oracle rand retries d rOn a horacle ha]
            have := ih (a + 1) (by omega)
            simp only
            omega
          · rw [fwrLoop_net_exhausted oracle rand retries d rOn a horacle ha]
            omega
      | .replied res =>
          by_cases hs : res.ok = false ∧ a ≤ retries ∧ res.status ∈ rOn
          · rw [fwrLoop_status_retry oracle rand retries d rOn a res horacle hs]
            have := ih (a + 1) (by omega)
            simp only
            omega
          · rw [fwrLoop_final_response oracle rand retries d rOn a res horacle hs]
            dsimp only
            omega

/-- C2: with `retry = R`, a transport that fails with a non-abort
(network) error on every attempt makes exactly `R + 1` physical attempts
and then propagates the network error; and in every execution, whatever
the failure pattern, the total number of attempts is at most `R + 1`. -/
theorem c2_retry_attempt_count (oracle : Nat → AttemptResult) (rand : Nat → ℚ)
    (retries d : Nat) (rOn : List Nat) :
    ((∀ n, oracle n = .threw none) →
      (fetchWithRetry oracle rand retries d rOn).attempts = retries + 1
      ∧ (fetchWithRetry oracle rand retries d rOn).result = .error .netErr)
    ∧ (fetchWithRetry oracle rand retries d rOn).attempts ≤ retries + 1 := by
  constructor
  · intro hfail
    have h := fwrLoop_persistent oracle rand retries d rOn hfail retries 1
      (by omega) (by omega)
    rw [fetchWithRetry]
    exact ⟨by omega, h.2⟩
  · have h := fwrLoop_attempts_le oracle rand retries d rOn retries 1 (by omega)
    rw [fetchWithRetry]
    omega

/-- Witness for C2: three retries against an always-failing transport
give exactly four attempts. -/
theorem c2_retry_attempt_count_witness :
    (fetchWithRetry (fun _ => .threw none) (fun _ => 0) 3 300 [429, 502, 503, 504]).attempts
      = 4 := by
  exact (c2_retry_attempt_count (fun _ => .threw none) (fun _ => 0) 3 300
    [429, 502, 503, 504]).1 (fun _n => rfl) |>.1

/-- C3, counterexample to the claim as stated: the loop's abort guard
(`ac.signal.aborted && err.name === "AbortError"`) rethrows EVERY abort
immediately, without asking what fired the signal.  Concretely, a
transport attempt aborted by the per-attempt timeout (timeout 50 ms, no
external signal, transport needing 100 ms) with 3 retries available is
NOT retried: the loop makes exactly one attempt, refuting "timeouts ARE
eligible for retry". -/
theorem c3_counterexample :
    ¬ (∀ (oracle : Nat → AttemptResult) (rand : Nat → ℚ) (retries d : Nat)
          (rOn : List Nat),
        oracle 1 = .threw (some .timeout) → 1 ≤ retries →
        2 ≤ (fetchWithRetry oracle rand retries d rOn).attempts) := by
  intro hclaim
  have horacle : (fun _n : Nat => attemptOutcome ⟨none, 0, 100, ⟨true, 200, "OK", .null⟩, 50⟩) 1
      = .threw (some .timeout) := by decide
  have h := hclaim (fun _n => attemptOutcome ⟨none, 0, 100, ⟨true, 200, "OK", .null⟩, 50⟩)
    (fun _n => 0) 3 300 [429] horacle (by omega)
  rw [fetchWithRetry,
      fwrLoop_abort _ _ 3 300 [429] 1 .timeout horacle] at h
  exact absurd h (by decide)

/-- C3 (amended): an attempt whose merged signal fired — whether the
firing came from the per-attempt timeout or from an explicit user/group
cancellation — propagates immediately: one attempt, no retry, no backoff
delay.  Only a non-abort (network) failure is transient: with attempts
remaining it retries after a backoff delay.  A signal-free attempt whose
per-attempt timeout fires before the transport completes is exactly such
an immediate abort, with the timeout charged as the cause. -/
theorem c3_abort_never_retried_amended (oracle : Nat → AttemptResult)
    (rand : Nat → ℚ) (retries d : Nat) (rOn : List Nat) (a : Nat)
    (cause : AbortCause) (env : AttemptEnv) :
    (oracle a = .threw (some cause) →
      fetchWithRetryLoop oracle rand retries d rOn a
        = ⟨.error (.abortErr cause), 1, []⟩)
    ∧ (oracle a = .threw none → a ≤ retries →
      (fetchWithRetryLoop oracle rand retries d rOn a).attempts
          = (fetchWithRetryLoop oracle rand retries d rOn (a + 1)).attempts + 1
      ∧ (fetchWithRetryLoop oracle rand retries d rOn a).delays.head?
          = some (backoffDelay d (rand a) a))
    ∧ (env.optSignal = none → 0 < env.timeout → env.timeout < env.fetchDur →
      attemptOutcome env = .threw (some .timeout)) := by
  refine ⟨?_, ?_, ?_⟩
  · intro h
    exact fwrLoop_abort oracle rand retries d rOn a cause h
  · intro h ha
    rw [fwrLoop_net_retry oracle rand retries d rOn a h ha]
    exact ⟨rfl, rfl⟩
  · intro hsig htpos htlt
    unfold attemptOutcome acAbortTime
    rw [hsig]
    simp only [optMin, if_pos htpos]
    rw [if_pos (by omega : env.start + env.timeout < env.start + env.fetchDur)]
    simp

/-- Witness for C3 (amended): an externally cancelled attempt propagates
in one attempt; a network failure at attempt 1 with one retry allowed
makes a second attempt; a 50 ms timeout under a 100 ms transport yields
a timeout-classified abort. -/
theorem c3_abort_never_retried_amended_witness :
    fetchWithRetryLoop (fun _n => .threw (some .external)) (fun _n => 0) 3 300 [429] 1
      = ⟨.error (.abortErr .external), 1, []⟩
    ∧ (fetchWithRetryLoop (fun _n => .threw none) (fun _n => 0) 1 300 [429] 1).attempts
      = (fetchWithRetryLoop (fun _n => .threw none) (fun _n => 0) 1 300 [429] 2).attempts + 1
    ∧ attemptOutcome ⟨none, 0, 100, ⟨true, 200, "OK", .null⟩, 50⟩
      = .threw (some .timeout) := by
  refine ⟨?_, ?_, ?_⟩
  · exact (c3_abort_never_retried_amended (fun _n => .threw (some .external))
      (fun _n => 0) 3 300 [429] 1 .external
      ⟨none, 0, 100, ⟨true, 200, "OK", .null⟩, 50⟩).1 rfl
  · exact ((c3_abort_never_retried_amended (fun _n => .threw none)
      (fun _n => 0) 1 300 [429] 1 .external
      ⟨none, 0, 100, ⟨true, 200, "OK", .null⟩, 50⟩).2.1 rfl (by omega)).1
  · exact (c3_abort_never_retried_amended (fun _n => .threw none)
      (fun _n => 0) 1 300 [429] 1 .external
      ⟨none, 0, 100, ⟨true, 200, "OK", .null⟩, 50⟩).2.2 rfl (by decide) (by decide)

/-- C9: for a retried attempt `n ≥ 1` the inserted delay is
`retryDelay * 2^(n-1)` plus the jitter `Math.floor(Math.random() * retryDelay)`;
for any random sample in `[0, 1)` that delay lies in
`[retryDelay * 2^(n-1), retryDelay * 2^(n-1) + retryDelay)`; and on both
retry branches (network error, retryable status) the delay the loop
actually inserts before attempt `n + 1` is exactly this value. -/
theorem c9_backoff_jitter (dlt : Nat) (r : ℚ) (n : Nat)
    (hd : 0 < dlt) (hn : 1 ≤ n) (hr0 : 0 ≤ r) (hr1 : r < 1) :
    dlt * 2 ^ (n - 1) ≤ backoffDelay dlt r n
    ∧ backoffDelay dlt r n < dlt * 2 ^ (n - 1) + dlt
    ∧ (∀ (oracle : Nat → AttemptResult) (rand : Nat → ℚ) (retries : Nat)
          (rOn : List Nat),
        oracle n = .threw none → n ≤ retries →
        (fetchWithRetryLoop oracle rand retries dlt rOn n).delays.head?
          = some (backoffDelay dlt (rand n) n))
    ∧ (∀ (oracle : Nat → AttemptResult) (rand : Nat → ℚ) (retries : Nat)
          (rOn : List Nat) (res : Resp),
        oracle n = .replied res → res.ok = false → n ≤ retries →
        res.status ∈ rOn →
        (fetchWithRetryLoop oracle rand retries dlt rOn n).delays.head?
          = some (backoffDelay dlt (rand n) n)) := by
  have hjit : Nat.floor (r * (dlt : ℚ)) < dlt := by
    rw [Nat.floor_lt (mul_nonneg hr0 (by positivity))]
    calc r * (dlt : ℚ) < 1 * (dlt : ℚ) := by
          exact mul_lt_mul_of_pos_right hr1 (by exact_mod_cast hd)
      _ = (dlt : ℚ) := one_mul _
  refine ⟨Nat.le_add_right _ _, ?_, ?_, ?_⟩
  · unfold backoffDelay
    omega
  · intro oracle rand retries rOn h ha
    rw [fwrLoop_net_retry oracle rand retries dlt rOn n h ha]
    rfl
  · intro oracle rand retries rOn res h hok ha hin
    rw [fwrLoop_status_retry oracle rand retries dlt rOn n res h ⟨hok, ha, hin⟩]
    rfl

/-- Witness for C9 at `retryDelay = 300`, `Math.random() = 1/2`,
attempt 2: the delay is in `[600, 900)`, and an always-network-failing
oracle inserts exactly that delay at attempt 2. -/
theorem c9_backoff_jitter_witness :
    300 * 2 ^ (2 - 1) ≤ backoffDelay 300 (1 / 2) 2
    ∧ backoffDelay 300 (1 / 2) 2 < 300 * 2 ^ (2 - 1) + 300
    ∧ (fetchWithRetryLoop (fun _n => .threw none) (fun _n => 1 / 2) 2 300 [] 2).delays.head?
      = some (backoffDelay 300 (1 / 2) 2) := by
  have h := c9_backoff_jitter 300 (1 / 2) 2 (by decide) (by decide)
    (by norm_num) (by norm_num)
  exact ⟨h.1, h.2.1, h.2.2.1 (fun _n => .threw none) (fun _n => 1 / 2) 2 [] rfl
    (by omega)⟩

theorem qInv_init (maxC : Option Nat) : QInv maxC initQ := by
  refine ⟨rfl, ?_, ?_, ?_⟩ <;> simp [initQ]

theorem qInv_step (maxC : Option Nat) (s : QState) (e : QEvent)
    (h : QInv maxC s) : QInv maxC (qStep maxC s e) := by
  obtain ⟨hlen, hbound, hpw, hlt⟩ := h
  cases e with
  | submit =>
      by_cases hb : belowMax s.active maxC = true
      · simp only [qStep, if_pos hb]
        refine ⟨?_, ?_, hpw, ?_⟩
        · dsimp only
          simp only [List.length_append, List.length_singleton]
          omega
        · intro n hn
          rw [hn] at hb
          simp only [belowMax, decide_eq_true_eq] at hb
          dsimp only
          omega
        · intro i hi
          dsimp only
          exact Nat.lt_trans (hlt i hi) (Nat.lt_succ_self _)
      · simp only [qStep, if_neg hb]
        refine ⟨hlen, hbound, ?_, ?_⟩
        · rw [List.pairwise_append]
          refine ⟨hpw, List.pairwise_singleton _ _, ?_⟩
          intro a ha b hb'
          simp only [List.mem_singleton] at hb'
          subst hb'
          exact hlt a ha
        · intro i hi
          rcases List.mem_append.mp hi with h1 | h1
          · exact Nat.lt_trans (hlt i h1) (Nat.lt_succ_self _)
          · simp only [List.mem_singleton] at h1
            subst h1
            exact Nat.lt_succ_self _
  | settle id ok =>
      by_cases hid : id ∈ s.running
      · have hpos : 0 < s.running.length := List.length_pos.mpr (List.ne_nil_of_mem hid)
        have herase : (s.running.erase id).length = s.running.length - 1 :=
          List.length_erase_of_mem hid
        simp only [qStep, if_pos hid]
        cases hw : s.waiting with
        | nil =>
            dsimp only
            refine ⟨?_, ?_, ?_, ?_⟩
            · dsimp only
              rw [herase]
              omega
            · intro n hn
              have := hbound n hn
              dsimp only
              omega
            · exact List.Pairwise.nil
            · intro i hi
              simp at hi
        | cons w ws =>
            dsimp only
            refine ⟨?_, ?_, ?_, ?_⟩
            · dsimp only
              simp only [List.length_append, List.length_singleton, herase]
              omega
            · intro n hn
              have := hbound n hn
              dsimp only
              omega
            · exact (hw ▸ hpw).of_cons
            · intro i hi
              exact hlt i (hw ▸ List.mem_cons_of_mem w hi)
      · simpa only [qStep, if_neg hid] using ⟨hlen, hbound, hpw, hlt⟩

theorem qInv_reachable (maxC : Option Nat) (s : QState)
    (h : QReachable maxC s) : QInv maxC s := by
  induction h with
  | init => exact qInv_init maxC
  | step s e _hr ih => exact qInv_step maxC s e ih

/-- C4: in every reachable state of the concurrency queue, `activeCount`
is non-negative, equals the number of running tasks, and never exceeds a
finite `maxConcurrent`; the wait list is in strictly increasing arrival
order (FIFO, no reordering); settlement of a running task — with the same
effect whether it succeeded or failed — decrements `activeCount` when the
wait list is empty, and with a non-empty wait list admits exactly its
head (removing it from the wait list, net `activeCount` unchanged). -/
theorem c4_concurrency_queue (maxC : Option Nat) (s : QState)
    (h : QReachable maxC s) :
    ((0 : Int) ≤ s.active ∧ s.active = (s.running.length : Int)
      ∧ ∀ n, maxC = some n → s.active ≤ (n : Int) ∧ s.running.length ≤ n)
    ∧ List.Pairwise (· < ·) s.waiting
    ∧ (∀ id ok, id ∈ s.running →
        (s.waiting = [] → (qStep maxC s (.settle id ok)).active = s.active - 1)
        ∧ (∀ w ws, s.waiting = w :: ws →
            (qStep maxC s (.settle id ok)).active = s.active
            ∧ (qStep maxC s (.settle id ok)).waiting = ws
            ∧ w ∈ (qStep maxC s (.settle id ok)).running))
    ∧ (∀ id, qStep maxC s (.settle id true) = qStep maxC s (.settle id false)) := by
  obtain ⟨hlen, hbound, hpw, hlt⟩ := qInv_reachable maxC s h
  refine ⟨⟨?_, hlen, ?_⟩, hpw, ?_, ?_⟩
  · rw [hlen]
    positivity
  · intro n hn
    have := hbound n hn
    refine ⟨this, ?_⟩
    omega
  · intro id ok hid
    constructor
    · intro hw
      simp only [qStep, if_pos hid]
      rw [hw]
    · intro w ws hw
      simp only [qStep, if_pos hid]
      rw [hw]
      dsimp only
      refine ⟨by omega, rfl, ?_⟩
      simp
  · intro id
    rfl

/-- Witness for C4: after one submission to a queue with
`maxConcurrent = 2`, the invariants hold and settling the single running
task (id 0) returns `activeCount` to zero. -/
theorem c4_concurrency_queue_witness :
    ((0 : Int) ≤ (qStep (some 2) initQ .submit).active
      ∧ (qStep (some 2) initQ .submit).active ≤ (2 : Int))
    ∧ (qStep (some 2) (qStep (some 2) initQ .submit) (.settle 0 true)).active
        = (qStep (some 2) initQ .submit).active - 1 := by
  have h := c4_concurrency_queue (some 2) (qStep (some 2) initQ .submit)
    (.step _ .submit .init)
  exact ⟨⟨h.1.1, (h.1.2.2 2 rfl).1⟩, (h.2.2.1 0 true (by decide)).1 rfl⟩

/-- C6, counterexample to the claim as stated: `enqueue` never consults a
signal, and the an abort listener added to an ALREADY-aborted signal
never fires.  A task whose composed signal fired at t = 0 but which
starts (is dequeued) at t = 5 therefore does not short-circuit: its
transport runs un-aborted to a successful reply, and its admission
consumed a concurrency slot (`activeCount` was incremented). -/
theorem c6_counterexample :
    (¬ ∃ c, attemptOutcome ⟨some ⟨some 0⟩, 5, 10, ⟨true, 200, "OK", .null⟩, 0⟩
        = .threw (some c))
    ∧ attemptOutcome ⟨some ⟨some 0⟩, 5, 10, ⟨true, 200, "OK", .null⟩, 0⟩
        = .replied ⟨true, 200, "OK", .null⟩
    ∧ (qStep (some 1) initQ .submit).active = initQ.active + 1 := by
  refine ⟨?_, by decide, rfl⟩
  rintro ⟨c, hc⟩
  cases c <;> exact absurd hc (by decide)

/-- C6 (amended): firing a group's signal aborts exactly the requests
whose current transport attempt had already registered its abort relay
(attempt start strictly before the firing): such an attempt fails with an
externally-caused `AbortError`.  A task whose composed signal fired at or
before its attempt start is NOT short-circuited: the once-listener never
fires, the transport attempt completes normally, and admission into the
queue consumes a concurrency slot regardless of any signal. -/
theorem c6_group_cancellation_amended (sig : SignalState) (ta start dur : Nat)
    (res : Resp) (h : sig.abortedAt = some ta) :
    (start < ta → ta < start + dur →
      attemptOutcome ⟨some sig, start, dur, res, 0⟩ = .threw (some .external))
    ∧ (ta ≤ start →
      attemptOutcome ⟨some sig, start, dur, res, 0⟩ = .replied res)
    ∧ (∀ (maxC : Option Nat) (s : QState), belowMax s.active maxC = true →
      (qStep maxC s .submit).active = s.active + 1) := by
  refine ⟨?_, ?_, ?_⟩
  · intro hlt hdur
    have hlf : listenerFireTime sig start = some ta := by
      unfold listenerFireTime
      rw [h]
      dsimp only
      rw [if_pos hlt]
    have hac : acAbortTime ⟨some sig, start, dur, res, 0⟩ = some ta := by
      unfold acAbortTime
      dsimp only
      rw [hlf]
      rfl
    unfold attemptOutcome
    rw [hac]
    dsimp only
    rw [if_pos hdur, hlf]
    simp
  · intro hle
    have hlf : listenerFireTime sig start = none := by
      unfold listenerFireTime
      rw [h]
      dsimp only
      rw [if_neg (by omega)]
    have hac : acAbortTime ⟨some sig, start, dur, res, 0⟩ = none := by
      unfold acAbortTime
      dsimp only
      rw [hlf]
      rfl
    unfold attemptOutcome
    rw [hac]
  · intro maxC s hb
    simp only [qStep, if_pos hb]

/-- Witness for C6 (amended): a signal aborting at t = 10 kills an
attempt started at t = 5; a signal that aborted at t = 3 leaves an
attempt started at t = 5 untouched; admitting a task into a free queue
increments `activeCount`. -/
theorem c6_group_cancellation_amended_witness :
    attemptOutcome ⟨some ⟨some 10⟩, 5, 100, ⟨true, 200, "OK", .null⟩, 0⟩
      = .threw (some .external)
    ∧ attemptOutcome ⟨some ⟨some 3⟩, 5, 100, ⟨true, 200, "OK", .null⟩, 0⟩
      = .replied ⟨true, 200, "OK", .null⟩
    ∧ (qStep (some 1) initQ .submit).active = initQ.active + 1 := by
  refine ⟨?_, ?_, ?_⟩
  · exact (c6_group_cancellation_amended ⟨some 10⟩ 10 5 100
      ⟨true, 200, "OK", .null⟩ rfl).1 (by omega) (by omega)
  · exact (c6_group_cancellation_amended ⟨some 3⟩ 3 5 100
      ⟨true, 200, "OK", .null⟩ rfl).2.1 (by omega)
  · exact (c6_group_cancellation_amended ⟨some 3⟩ 3 5 100
      ⟨true, 200, "OK", .null⟩ rfl).2.2 (some 1) initQ (by decide)

end Zfecth
